import Mathlib

/-!
# Adafruit_BD3491FS: register-write behaviour of the driver

A shallow embedding of `Adafruit_BD3491FS.cpp`.  The driver is a thin layer
over an I2C transport: every public operation decides whether to write, to
which register, and which byte.  The embedding keeps the driver's only piece
of state (the device handle `i2c_dev`) together with the trace of register
writes that reached the transport, and returns `none` where the C++ code
would dereference a handle that was never created.
-/

namespace BD3491FS

/-- Modelled from the spec: the constants of `Adafruit_BD3491FS.h`, which is
not among the sources.  The register addresses and the two enumerator values
the code names (`BD3491FS_INPUT_MUTE`, `BD3491FS_SURR_OFF`) are taken as
parameters, so every theorem holds for whatever values the header gives. -/
structure Header where
  BD3491FS_INPUT_SELECTOR : Nat
  BD3491FS_INPUT_GAIN : Nat
  BD3491FS_VOLUME_GAIN_CH1 : Nat
  BD3491FS_VOLUME_GAIN_CH2 : Nat
  BD3491FS_BASS_GAIN : Nat
  BD3491FS_TREBLE_GAIN : Nat
  BD3491FS_SURROUND : Nat
  BD3491FS_SYSTEM_RESET : Nat
  BD3491FS_INPUT_MUTE : Nat
  BD3491FS_SURR_OFF : Nat
  deriving DecidableEq, Repr

/-- The bus object (`TwoWire *wire`) handed to `begin`: the external transport,
reduced to what the driver can observe of it, namely the addresses that
acknowledge the opening handshake. -/
structure TwoWire where
  devices : List Nat
  deriving DecidableEq, Repr

/-- The device handle `Adafruit_I2CDevice(i2c_address, wire)`. -/
structure Adafruit_I2CDevice where
  addr : Nat
  wire : TwoWire
  deriving DecidableEq, Repr

/-- One register write as the transport sees it: device address, register
address, and the single payload byte. -/
structure BusWrite where
  addr : Nat
  reg : Nat
  value : Nat
  deriving DecidableEq, Repr

/-- The controller object together with the transport's record of writes.
`i2c_dev` is the member pointer of the class: `none` until `begin` has run. -/
structure Adafruit_BD3491FS where
  i2c_dev : Option Adafruit_I2CDevice
  trace : List BusWrite
  deriving DecidableEq, Repr

/-- The register object `Adafruit_I2CRegister(i2c_dev, reg, width)`. -/
structure Adafruit_I2CRegister where
  i2cdevice : Option Adafruit_I2CDevice
  address : Nat
  width : Nat
  deriving DecidableEq, Repr

/-- The transport handshake `i2c_dev->begin()` of the external bus library,
after the spec's upstream interface `open(address, bus_handle)`: it succeeds
when the address acknowledges on the bus. -/
def Adafruit_I2CDevice.begin (d : Adafruit_I2CDevice) : Bool :=
  decide (d.addr ∈ d.wire.devices)

/-- The call `reg.write(value)` of the external bus library on a one-byte
register, after the spec's upstream interface
`write(register_address, byte_value)`: the low byte of the value goes to the
register of the device behind the handle, and the transport records it.
Without a handle the C++ code dereferences an unset pointer, which is rendered
as `none`. -/
def Adafruit_I2CRegister.write (r : Adafruit_I2CRegister) (value : Nat)
    (s : Adafruit_BD3491FS) : Option Adafruit_BD3491FS :=
  match r.i2cdevice with
  | none => none
  | some d => some { s with trace := s.trace ++ [⟨d.addr, r.address, value % 256⟩] }

/-- The source function `Adafruit_BD3491FS::reset`. -/
def reset (hdr : Header) (s : Adafruit_BD3491FS) : Option Adafruit_BD3491FS :=
  let reset := Adafruit_I2CRegister.mk s.i2c_dev hdr.BD3491FS_SYSTEM_RESET 1
  reset.write 0x81 s

/-- The source function `Adafruit_BD3491FS::begin`: the handle is replaced
before the handshake is tried, and the reset is issued only when it succeeds. -/
def begin (hdr : Header) (i2c_address : Nat) (wire : TwoWire)
    (s : Adafruit_BD3491FS) : Option (Bool × Adafruit_BD3491FS) :=
  let dev := Adafruit_I2CDevice.mk i2c_address wire
  let s1 := { s with i2c_dev := some dev }
  if !dev.begin then
    some (false, s1)
  else
    (reset hdr s1).map (fun s2 => (true, s2))

/-- The source function `Adafruit_BD3491FS::setCurrentInput`. -/
def setCurrentInput (hdr : Header) (input : Nat) (s : Adafruit_BD3491FS) :
    Option Adafruit_BD3491FS :=
  let current_input := Adafruit_I2CRegister.mk s.i2c_dev hdr.BD3491FS_INPUT_SELECTOR 1
  current_input.write input s

/-- The source function `Adafruit_BD3491FS::setInputGain`. -/
def setInputGain (hdr : Header) (gain : Nat) (s : Adafruit_BD3491FS) :
    Option Adafruit_BD3491FS :=
  if gain = 5 ∨ gain = 7 then
    some s
  else
    let input_gain := Adafruit_I2CRegister.mk s.i2c_dev hdr.BD3491FS_INPUT_GAIN 1
    input_gain.write (gain <<< 1) s

/-- The source function `Adafruit_BD3491FS::setVolumeCh1`. -/
def setVolumeCh1 (hdr : Header) (attenuation : Nat) (s : Adafruit_BD3491FS) :
    Option Adafruit_BD3491FS :=
  if attenuation > 87 then
    some s
  else
    let volume := Adafruit_I2CRegister.mk s.i2c_dev hdr.BD3491FS_VOLUME_GAIN_CH1 1
    volume.write (attenuation <<< 1) s

/-- The source function `Adafruit_BD3491FS::setVolumeCh2`. -/
def setVolumeCh2 (hdr : Header) (attenuation : Nat) (s : Adafruit_BD3491FS) :
    Option Adafruit_BD3491FS :=
  if attenuation > 87 then
    some s
  else
    let volume := Adafruit_I2CRegister.mk s.i2c_dev hdr.BD3491FS_VOLUME_GAIN_CH2 1
    volume.write (attenuation <<< 1) s

/-- The source function `Adafruit_BD3491FS::setBassGain`. -/
def setBassGain (hdr : Header) (level : Nat) (cut : Bool) (s : Adafruit_BD3491FS) :
    Option Adafruit_BD3491FS :=
  if level > 7 then
    some s
  else
    let bass_gain := Adafruit_I2CRegister.mk s.i2c_dev hdr.BD3491FS_BASS_GAIN 1
    bass_gain.write ((if cut then 1 <<< 7 else 0) ||| level) s

/-- The source function `Adafruit_BD3491FS::setTrebleGain`. -/
def setTrebleGain (hdr : Header) (level : Nat) (cut : Bool) (s : Adafruit_BD3491FS) :
    Option Adafruit_BD3491FS :=
  if level < 0 ∨ level > 7 then
    some s
  else
    let treble_gain := Adafruit_I2CRegister.mk s.i2c_dev hdr.BD3491FS_TREBLE_GAIN 1
    treble_gain.write ((if cut then 1 <<< 7 else 0) ||| level) s

/-- The source function `Adafruit_BD3491FS::setSurroundGain`. -/
def setSurroundGain (hdr : Header) (level : Nat) (s : Adafruit_BD3491FS) :
    Option Adafruit_BD3491FS :=
  let state := if level ≠ hdr.BD3491FS_SURR_OFF then true else false
  let surround := Adafruit_I2CRegister.mk s.i2c_dev hdr.BD3491FS_SURROUND 1
  surround.write ((if state then 1 <<< 7 else 0) ||| (level &&& 0b01111111)) s

/-- The source function `Adafruit_BD3491FS::mute`. -/
def mute (hdr : Header) (s : Adafruit_BD3491FS) : Option Adafruit_BD3491FS :=
  let current_input := Adafruit_I2CRegister.mk s.i2c_dev hdr.BD3491FS_INPUT_SELECTOR 1
  current_input.write hdr.BD3491FS_INPUT_MUTE s

/-- The source function `Adafruit_BD3491FS::unMute`. -/
def unMute (hdr : Header) (input : Nat) (s : Adafruit_BD3491FS) :
    Option Adafruit_BD3491FS :=
  let current_input := Adafruit_I2CRegister.mk s.i2c_dev hdr.BD3491FS_INPUT_SELECTOR 1
  current_input.write input s

/-- A call of one public operation of the class, with its arguments. -/
inductive Op where
  | begin (i2c_address : Nat) (wire : TwoWire)
  | reset
  | setCurrentInput (input : Nat)
  | setInputGain (gain : Nat)
  | setVolumeCh1 (attenuation : Nat)
  | setVolumeCh2 (attenuation : Nat)
  | setBassGain (level : Nat) (cut : Bool)
  | setTrebleGain (level : Nat) (cut : Bool)
  | setSurroundGain (level : Nat)
  | mute
  | unMute (input : Nat)
  deriving DecidableEq, Repr

/-- Whether the call is one of the nine setters (everything but `begin` and
`reset`). -/
def Op.isSetter : Op → Bool
  | .begin _ _ => false
  | .reset => false
  | _ => true

/-- Perform one call on the controller (the result of `begin` is dropped). -/
def Op.step (hdr : Header) : Op → Adafruit_BD3491FS → Option Adafruit_BD3491FS
  | .begin a w, s => (BD3491FS.begin hdr a w s).map Prod.snd
  | .reset, s => BD3491FS.reset hdr s
  | .setCurrentInput i, s => BD3491FS.setCurrentInput hdr i s
  | .setInputGain g, s => BD3491FS.setInputGain hdr g s
  | .setVolumeCh1 a, s => BD3491FS.setVolumeCh1 hdr a s
  | .setVolumeCh2 a, s => BD3491FS.setVolumeCh2 hdr a s
  | .setBassGain l c, s => BD3491FS.setBassGain hdr l c s
  | .setTrebleGain l c, s => BD3491FS.setTrebleGain hdr l c s
  | .setSurroundGain l, s => BD3491FS.setSurroundGain hdr l s
  | .mute, s => BD3491FS.mute hdr s
  | .unMute i, s => BD3491FS.unMute hdr i s

/-- Perform a sequence of calls in order, each completing before the next. -/
def run (hdr : Header) : List Op → Adafruit_BD3491FS → Option Adafruit_BD3491FS
  | [], s => some s
  | op :: ops, s => (Op.step hdr op s).bind (run hdr ops)

/-- Whether the call is `begin`, the one operation that replaces the handle. -/
def Op.isBegin : Op → Bool
  | .begin _ _ => true
  | _ => false

/-- A concrete assignment of the header constants, used to evaluate the
operations on sample inputs. -/
def sampleHeader : Header :=
  { BD3491FS_INPUT_SELECTOR := 0x04
    BD3491FS_INPUT_GAIN := 0x06
    BD3491FS_VOLUME_GAIN_CH1 := 0x21
    BD3491FS_VOLUME_GAIN_CH2 := 0x22
    BD3491FS_BASS_GAIN := 0x51
    BD3491FS_TREBLE_GAIN := 0x57
    BD3491FS_SURROUND := 0x78
    BD3491FS_SYSTEM_RESET := 0xFE
    BD3491FS_INPUT_MUTE := 0x07
    BD3491FS_SURR_OFF := 0x00 }

/-- A bus on which the address 0x41 acknowledges. -/
def sampleWire : TwoWire := ⟨[0x41]⟩

/-- A bus on which nothing acknowledges. -/
def emptyWire : TwoWire := ⟨[]⟩

/-- A controller on which `begin` has not run yet. -/
def fresh : Adafruit_BD3491FS := ⟨none, []⟩

/-- A controller holding a handle for address 0x41 and an empty trace. -/
def ready : Adafruit_BD3491FS := ⟨some ⟨0x41, sampleWire⟩, []⟩

/-! ## Shared lemmas -/

theorem write_some (r : Adafruit_I2CRegister) (v : Nat) (s : Adafruit_BD3491FS)
    (d : Adafruit_I2CDevice) (h : r.i2cdevice = some d) :
    r.write v s = some { s with trace := s.trace ++ [⟨d.addr, r.address, v % 256⟩] } := by
  simp [Adafruit_I2CRegister.write, h]

theorem shl_one_mod (a : Nat) (h : a ≤ 127) : (a <<< 1) % 256 = a <<< 1 := by
  rw [Nat.shiftLeft_eq]
  omega

theorem tone_byte_mod (level : Nat) (cut : Bool) (h : level ≤ 7) :
    ((if cut then 1 <<< 7 else 0) ||| level) % 256 = (if cut then 0x80 else 0) ||| level := by
  interval_cases level <;> cases cut <;> decide

theorem surround_byte_lt (level : Nat) : 0x80 ||| (level &&& 0x7F) < 256 := by
  have h1 : level &&& 0x7F < 2 ^ 8 :=
    lt_of_lt_of_le (Nat.and_lt_two_pow level (n := 7) (by decide)) (by decide)
  exact Nat.or_lt_two_pow (n := 8) (by decide) h1

theorem reset_some (hdr : Header) (s : Adafruit_BD3491FS) (d : Adafruit_I2CDevice)
    (hs : s.i2c_dev = some d) :
    reset hdr s
      = some { s with trace := s.trace ++ [⟨d.addr, hdr.BD3491FS_SYSTEM_RESET, 0x81⟩] } := by
  simp only [reset]
  rw [write_some _ _ _ d hs]

theorem begin_fail (hdr : Header) (a : Nat) (w : TwoWire) (s : Adafruit_BD3491FS)
    (h : Adafruit_I2CDevice.begin ⟨a, w⟩ = false) :
    begin hdr a w s = some (false, ⟨some ⟨a, w⟩, s.trace⟩) := by
  simp [begin, h]

theorem begin_ok (hdr : Header) (a : Nat) (w : TwoWire) (s : Adafruit_BD3491FS)
    (h : Adafruit_I2CDevice.begin ⟨a, w⟩ = true) :
    begin hdr a w s
      = some (true, ⟨some ⟨a, w⟩, s.trace ++ [⟨a, hdr.BD3491FS_SYSTEM_RESET, 0x81⟩]⟩) := by
  simp [begin, h, reset, Adafruit_I2CRegister.write]

theorem write_init (r : Adafruit_I2CRegister) (v : Nat) (s : Adafruit_BD3491FS)
    (d : Adafruit_I2CDevice) (h : r.i2cdevice = some d) (hs : s.i2c_dev = some d) :
    ∃ s2 d2 rest, r.write v s = some s2 ∧ s2.i2c_dev = some d2 ∧ s2.trace = s.trace ++ rest :=
  ⟨_, d, [⟨d.addr, r.address, v % 256⟩], write_some r v s d h, hs, rfl⟩

theorem noop_init (s : Adafruit_BD3491FS) (d : Adafruit_I2CDevice) (hs : s.i2c_dev = some d) :
    ∃ s2 d2 rest, some s = some s2 ∧ s2.i2c_dev = some d2 ∧ s2.trace = s.trace ++ rest :=
  ⟨s, d, [], rfl, hs, (List.append_nil _).symm⟩

/-- A call on a controller that holds a handle returns, leaves a handle in
place, and only appends to the trace. -/
theorem step_init (hdr : Header) (op : Op) (s : Adafruit_BD3491FS) (d : Adafruit_I2CDevice)
    (hs : s.i2c_dev = some d) :
    ∃ s2 d2 rest, Op.step hdr op s = some s2 ∧ s2.i2c_dev = some d2 ∧
      s2.trace = s.trace ++ rest := by
  cases op with
  | begin a w =>
    cases h : Adafruit_I2CDevice.begin ⟨a, w⟩ with
    | false =>
      refine ⟨⟨some ⟨a, w⟩, s.trace⟩, ⟨a, w⟩, [], ?_, rfl, (List.append_nil _).symm⟩
      simp [Op.step, begin_fail hdr a w s h]
    | true =>
      refine ⟨⟨some ⟨a, w⟩, s.trace ++ [⟨a, hdr.BD3491FS_SYSTEM_RESET, 0x81⟩]⟩, ⟨a, w⟩,
        [⟨a, hdr.BD3491FS_SYSTEM_RESET, 0x81⟩], ?_, rfl, rfl⟩
      simp [Op.step, begin_ok hdr a w s h]
  | reset => exact write_init _ _ _ d hs hs
  | setCurrentInput i => exact write_init _ _ _ d hs hs
  | setInputGain g =>
    by_cases hg : g = 5 ∨ g = 7
    · simp only [Op.step, setInputGain, if_pos hg]
      exact noop_init s d hs
    · simp only [Op.step, setInputGain, if_neg hg]
      exact write_init _ _ _ d hs hs
  | setVolumeCh1 a =>
    by_cases ha : a > 87
    · simp only [Op.step, setVolumeCh1, if_pos ha]
      exact noop_init s d hs
    · simp only [Op.step, setVolumeCh1, if_neg ha]
      exact write_init _ _ _ d hs hs
  | setVolumeCh2 a =>
    by_cases ha : a > 87
    · simp only [Op.step, setVolumeCh2, if_pos ha]
      exact noop_init s d hs
    · simp only [Op.step, setVolumeCh2, if_neg ha]
      exact write_init _ _ _ d hs hs
  | setBassGain l c =>
    by_cases hl : l > 7
    · simp only [Op.step, setBassGain, if_pos hl]
      exact noop_init s d hs
    · simp only [Op.step, setBassGain, if_neg hl]
      exact write_init _ _ _ d hs hs
  | setTrebleGain l c =>
    by_cases hl : l < 0 ∨ l > 7
    · simp only [Op.step, setTrebleGain, if_pos hl]
      exact noop_init s d hs
    · simp only [Op.step, setTrebleGain, if_neg hl]
      exact write_init _ _ _ d hs hs
  | setSurroundGain l => exact write_init _ _ _ d hs hs
  | mute => exact write_init _ _ _ d hs hs
  | unMute i => exact write_init _ _ _ d hs hs

/-- A sequence of calls on a controller that holds a handle runs to the end,
leaves a handle in place, and only appends to the trace. -/
theorem run_init (hdr : Header) (ops : List Op) :
    ∀ (s : Adafruit_BD3491FS) (d : Adafruit_I2CDevice), s.i2c_dev = some d →
      ∃ s2 d2 rest, run hdr ops s = some s2 ∧ s2.i2c_dev = some d2 ∧
        s2.trace = s.trace ++ rest := by
  induction ops with
  | nil => exact fun s d hs => ⟨s, d, [], rfl, hs, (List.append_nil _).symm⟩
  | cons op ops ih =>
    intro s d hs
    obtain ⟨s1, d1, r1, h1, hd1, ht1⟩ := step_init hdr op s d hs
    obtain ⟨s2, d2, r2, h2, hd2, ht2⟩ := ih s1 d1 hd1
    refine ⟨s2, d2, r1 ++ r2, ?_, hd2, ?_⟩
    · simp [run, h1, h2]
    · rw [ht2, ht1, List.append_assoc]

theorem write_at (r : Adafruit_I2CRegister) (v a : Nat) (t : Adafruit_BD3491FS)
    (d : Adafruit_I2CDevice) (h : r.i2cdevice = some d) (ha : d.addr = a) :
    r.write v t = some { t with trace := t.trace ++ [⟨a, r.address, v % 256⟩] } := by
  rw [write_some r v t d h, ha]

/-- The writes a setter appends depend only on the call and on the address
behind the handle: at most one write, the same on every controller whose
handle has that address. -/
theorem setter_writes (hdr : Header) (op : Op) (a : Nat) (hop : op.isSetter = true) :
    ∃ w : List BusWrite, w.length ≤ 1 ∧
      ∀ (t : Adafruit_BD3491FS) (d : Adafruit_I2CDevice), t.i2c_dev = some d → d.addr = a →
        Op.step hdr op t = some { t with trace := t.trace ++ w } := by
  have nop : ∀ t : Adafruit_BD3491FS, some t = some { t with trace := t.trace ++ [] } :=
    fun t => by simp
  cases op with
  | begin a w => simp [Op.isSetter] at hop
  | reset => simp [Op.isSetter] at hop
  | setCurrentInput i =>
    exact ⟨[⟨a, hdr.BD3491FS_INPUT_SELECTOR, i % 256⟩], by simp,
      fun t d ht ha => write_at _ _ a t d ht ha⟩
  | setInputGain g =>
    by_cases hg : g = 5 ∨ g = 7
    · refine ⟨[], by simp, fun t d ht ha => ?_⟩
      simp only [Op.step, setInputGain, if_pos hg]
      exact nop t
    · refine ⟨[⟨a, hdr.BD3491FS_INPUT_GAIN, (g <<< 1) % 256⟩], by simp, fun t d ht ha => ?_⟩
      simp only [Op.step, setInputGain, if_neg hg]
      exact write_at _ _ a t d ht ha
  | setVolumeCh1 x =>
    by_cases hx : x > 87
    · refine ⟨[], by simp, fun t d ht ha => ?_⟩
      simp only [Op.step, setVolumeCh1, if_pos hx]
      exact nop t
    · refine ⟨[⟨a, hdr.BD3491FS_VOLUME_GAIN_CH1, (x <<< 1) % 256⟩], by simp,
        fun t d ht ha => ?_⟩
      simp only [Op.step, setVolumeCh1, if_neg hx]
      exact write_at _ _ a t d ht ha
  | setVolumeCh2 x =>
    by_cases hx : x > 87
    · refine ⟨[], by simp, fun t d ht ha => ?_⟩
      simp only [Op.step, setVolumeCh2, if_pos hx]
      exact nop t
    · refine ⟨[⟨a, hdr.BD3491FS_VOLUME_GAIN_CH2, (x <<< 1) % 256⟩], by simp,
        fun t d ht ha => ?_⟩
      simp only [Op.step, setVolumeCh2, if_neg hx]
      exact write_at _ _ a t d ht ha
  | setBassGain l c =>
    by_cases hl : l > 7
    · refine ⟨[], by simp, fun t d ht ha => ?_⟩
      simp only [Op.step, setBassGain, if_pos hl]
      exact nop t
    · refine ⟨[⟨a, hdr.BD3491FS_BASS_GAIN, ((if c then 1 <<< 7 else 0) ||| l) % 256⟩],
        by simp, fun t d ht ha => ?_⟩
      simp only [Op.step, setBassGain, if_neg hl]
      exact write_at _ _ a t d ht ha
  | setTrebleGain l c =>
    by_cases hl : l < 0 ∨ l > 7
    · refine ⟨[], by simp, fun t d ht ha => ?_⟩
      simp only [Op.step, setTrebleGain, if_pos hl]
      exact nop t
    · refine ⟨[⟨a, hdr.BD3491FS_TREBLE_GAIN, ((if c then 1 <<< 7 else 0) ||| l) % 256⟩],
        by simp, fun t d ht ha => ?_⟩
      simp only [Op.step, setTrebleGain, if_neg hl]
      exact write_at _ _ a t d ht ha
  | setSurroundGain l =>
    exact ⟨[⟨a, hdr.BD3491FS_SURROUND,
        ((if (if l ≠ hdr.BD3491FS_SURR_OFF then true else false) then 1 <<< 7 else 0)
          ||| (l &&& 0b01111111)) % 256⟩], by simp,
      fun t d ht ha => write_at _ _ a t d ht ha⟩
  | mute =>
    exact ⟨[⟨a, hdr.BD3491FS_INPUT_SELECTOR, hdr.BD3491FS_INPUT_MUTE % 256⟩], by simp,
      fun t d ht ha => write_at _ _ a t d ht ha⟩
  | unMute i =>
    exact ⟨[⟨a, hdr.BD3491FS_INPUT_SELECTOR, i % 256⟩], by simp,
      fun t d ht ha => write_at _ _ a t d ht ha⟩

/-! ## Setters: which register, which byte -/

/-- C1: on a controller holding a handle, for every attenuation a with
0 <= a <= 87, setVolumeCh1 appends exactly one write of the byte a << 1 to the
channel-1 volume register and setVolumeCh2 exactly one write of a << 1 to the
channel-2 volume register; for every 8-bit a >= 88 both leave the controller
and the trace as they were. -/
theorem C1_setVolume (hdr : Header) (s : Adafruit_BD3491FS) (d : Adafruit_I2CDevice)
    (a : Nat) (hs : s.i2c_dev = some d) :
    (a ≤ 87 →
      setVolumeCh1 hdr a s
          = some { s with trace := s.trace ++ [⟨d.addr, hdr.BD3491FS_VOLUME_GAIN_CH1, a <<< 1⟩] } ∧
      setVolumeCh2 hdr a s
          = some { s with trace := s.trace ++ [⟨d.addr, hdr.BD3491FS_VOLUME_GAIN_CH2, a <<< 1⟩] }) ∧
    (88 ≤ a → a < 256 → setVolumeCh1 hdr a s = some s ∧ setVolumeCh2 hdr a s = some s) := by
  refine ⟨fun ha => ?_, fun ha _ => ?_⟩
  · have hn : ¬ a > 87 := by omega
    have hm := shl_one_mod a (by omega)
    constructor
    · simp only [setVolumeCh1, if_neg hn]
      rw [write_some _ _ _ d hs, hm]
    · simp only [setVolumeCh2, if_neg hn]
      rw [write_some _ _ _ d hs, hm]
  · have hp : a > 87 := by omega
    simp [setVolumeCh1, setVolumeCh2, hp]

/-- Witness for C1 -/
theorem C1_setVolume_witness :
    (setVolumeCh1 sampleHeader 87 ready = some ⟨some ⟨0x41, sampleWire⟩, [⟨0x41, 0x21, 174⟩]⟩ ∧
      setVolumeCh2 sampleHeader 87 ready = some ⟨some ⟨0x41, sampleWire⟩, [⟨0x41, 0x22, 174⟩]⟩) ∧
    (setVolumeCh1 sampleHeader 88 ready = some ready ∧
      setVolumeCh2 sampleHeader 88 ready = some ready) :=
  ⟨(C1_setVolume sampleHeader ready ⟨0x41, sampleWire⟩ 87 rfl).1 (by decide),
   (C1_setVolume sampleHeader ready ⟨0x41, sampleWire⟩ 88 rfl).2 (by decide) (by decide)⟩

/-- C2: on a controller holding a handle, for every level in 0..7 and both
values of cut, setBassGain appends exactly one write of the byte
(cut ? 0x80 : 0) | level to the bass-gain register and setTrebleGain exactly
one write of the same byte to the treble-gain register; for every level > 7
both leave the controller and the trace as they were. -/
theorem C2_setToneGain (hdr : Header) (s : Adafruit_BD3491FS) (d : Adafruit_I2CDevice)
    (level : Nat) (cut : Bool) (hs : s.i2c_dev = some d) :
    (level ≤ 7 →
      setBassGain hdr level cut s
          = some { s with trace := s.trace ++
              [⟨d.addr, hdr.BD3491FS_BASS_GAIN, (if cut then 0x80 else 0) ||| level⟩] } ∧
      setTrebleGain hdr level cut s
          = some { s with trace := s.trace ++
              [⟨d.addr, hdr.BD3491FS_TREBLE_GAIN, (if cut then 0x80 else 0) ||| level⟩] }) ∧
    (level > 7 → setBassGain hdr level cut s = some s ∧ setTrebleGain hdr level cut s = some s) := by
  refine ⟨fun hl => ?_, fun hl => ?_⟩
  · have hn : ¬ level > 7 := by omega
    have hn2 : ¬ (level < 0 ∨ level > 7) := by omega
    have hm := tone_byte_mod level cut hl
    constructor
    · simp only [setBassGain, if_neg hn]
      rw [write_some _ _ _ d hs, hm]
    · simp only [setTrebleGain, if_neg hn2]
      rw [write_some _ _ _ d hs, hm]
  · simp [setBassGain, setTrebleGain, hl]

/-- Witness for C2 -/
theorem C2_setToneGain_witness :
    (setBassGain sampleHeader 7 true ready = some ⟨some ⟨0x41, sampleWire⟩, [⟨0x41, 0x51, 0x87⟩]⟩ ∧
      setTrebleGain sampleHeader 7 true ready
        = some ⟨some ⟨0x41, sampleWire⟩, [⟨0x41, 0x57, 0x87⟩]⟩) ∧
    (setBassGain sampleHeader 8 true ready = some ready ∧
      setTrebleGain sampleHeader 8 true ready = some ready) :=
  ⟨(C2_setToneGain sampleHeader ready ⟨0x41, sampleWire⟩ 7 true rfl).1 (by decide),
   (C2_setToneGain sampleHeader ready ⟨0x41, sampleWire⟩ 8 true rfl).2 (by decide)⟩

/-- C3: on a controller holding a handle, for every gain level in 0..7 other
than 5 and 7, setInputGain appends exactly one write of the byte level << 1 to
the input-gain register; for level 5 and for level 7 it leaves the controller
and the trace as they were. -/
theorem C3_setInputGain (hdr : Header) (s : Adafruit_BD3491FS) (d : Adafruit_I2CDevice)
    (level : Nat) (hs : s.i2c_dev = some d) :
    (level ≤ 7 → level ≠ 5 → level ≠ 7 →
      setInputGain hdr level s
          = some { s with trace := s.trace ++ [⟨d.addr, hdr.BD3491FS_INPUT_GAIN, level <<< 1⟩] }) ∧
    setInputGain hdr 5 s = some s ∧ setInputGain hdr 7 s = some s := by
  refine ⟨fun hl h5 h7 => ?_, by simp [setInputGain], by simp [setInputGain]⟩
  have hn : ¬ (level = 5 ∨ level = 7) := by omega
  simp only [setInputGain, if_neg hn]
  rw [write_some _ _ _ d hs, shl_one_mod level (by omega)]

/-- Witness for C3 -/
theorem C3_setInputGain_witness :
    setInputGain sampleHeader 6 ready = some ⟨some ⟨0x41, sampleWire⟩, [⟨0x41, 0x06, 12⟩]⟩ :=
  (C3_setInputGain sampleHeader ready ⟨0x41, sampleWire⟩ 6 rfl).1
    (by decide) (by decide) (by decide)

/-- C4: on a controller holding a handle, setSurroundGain(OFF) appends exactly
one write to the surround register of the byte 0x00 | (OFF & 0x7F), whose bit 7
is clear; for every level different from OFF it appends exactly one write to
the surround register of the byte 0x80 | (level & 0x7F), whose bit 7 is set. -/
theorem C4_setSurroundGain (hdr : Header) (s : Adafruit_BD3491FS) (d : Adafruit_I2CDevice)
    (level : Nat) (hs : s.i2c_dev = some d) :
    (setSurroundGain hdr hdr.BD3491FS_SURR_OFF s
        = some { s with trace := s.trace ++
            [⟨d.addr, hdr.BD3491FS_SURROUND, 0x00 ||| (hdr.BD3491FS_SURR_OFF &&& 0x7F)⟩] } ∧
      Nat.testBit (0x00 ||| (hdr.BD3491FS_SURR_OFF &&& 0x7F)) 7 = false) ∧
    (level ≠ hdr.BD3491FS_SURR_OFF →
      setSurroundGain hdr level s
        = some { s with trace := s.trace ++
            [⟨d.addr, hdr.BD3491FS_SURROUND, 0x80 ||| (level &&& 0x7F)⟩] } ∧
      Nat.testBit (0x80 ||| (level &&& 0x7F)) 7 = true) := by
  refine ⟨⟨?_, ?_⟩, fun hne => ⟨?_, ?_⟩⟩
  · have hlt : hdr.BD3491FS_SURR_OFF &&& 0x7F < 256 :=
      lt_of_lt_of_le (Nat.and_lt_two_pow _ (n := 7) (by decide)) (by decide)
    simp only [setSurroundGain, ne_eq, not_true_eq_false, if_false]
    rw [write_some _ _ _ d hs]
    simp [Nat.mod_eq_of_lt hlt]
  · have h7 : Nat.testBit 0x7F 7 = false := by decide
    rw [Nat.zero_or, Nat.testBit_and, h7, Bool.and_false]
  · have hlt := surround_byte_lt level
    simp only [setSurroundGain, ne_eq, hne, not_false_eq_true, if_true]
    rw [write_some _ _ _ d hs]
    simp [Nat.mod_eq_of_lt hlt]
  · have h7 : Nat.testBit 0x80 7 = true := by decide
    rw [Nat.testBit_or, h7, Bool.true_or]

/-- Witness for C4 -/
theorem C4_setSurroundGain_witness :
    setSurroundGain sampleHeader 5 ready = some ⟨some ⟨0x41, sampleWire⟩, [⟨0x41, 0x78, 0x85⟩]⟩ ∧
      Nat.testBit (0x80 ||| (5 &&& 0x7F)) 7 = true :=
  (C4_setSurroundGain sampleHeader ready ⟨0x41, sampleWire⟩ 5 rfl).2 (by decide)

/-! ## Initialisation -/

/-- C5 (the claim as stated fails): on a bus where nothing acknowledges,
begin returns false, and setCurrentInput called afterwards still reaches the
transport with one write, so the recorded trace is not empty. -/
theorem C5_counterexample :
    Adafruit_I2CDevice.begin ⟨0x41, emptyWire⟩ = false ∧
    begin sampleHeader 0x41 emptyWire fresh = some (false, ⟨some ⟨0x41, emptyWire⟩, []⟩) ∧
    setCurrentInput sampleHeader 3 ⟨some ⟨0x41, emptyWire⟩, []⟩
      = some ⟨some ⟨0x41, emptyWire⟩, [⟨0x41, 0x04, 3⟩]⟩ ∧
    Option.map Adafruit_BD3491FS.trace
        (run sampleHeader [Op.begin 0x41 emptyWire, Op.setCurrentInput 3] fresh) ≠ some [] := by
  decide

/-- C5 (as amended): when the transport handshake fails, begin returns false
and itself appends no write, leaving the new handle in place; the setters have
no initialisation guard, so every setter called afterwards appends exactly the
writes (at most one) that it appends on any controller whose handle has the
same address, a successfully initialised one included; mute, for one, appends
one write of the low byte of BD3491FS_INPUT_MUTE to the input-selector
register. -/
theorem C5_failed_begin (hdr : Header) (addr : Nat) (wire : TwoWire) (s : Adafruit_BD3491FS)
    (hfail : Adafruit_I2CDevice.begin ⟨addr, wire⟩ = false) :
    begin hdr addr wire s = some (false, ⟨some ⟨addr, wire⟩, s.trace⟩) ∧
    (∀ op : Op, op.isSetter = true → ∃ w : List BusWrite, w.length ≤ 1 ∧
      Op.step hdr op ⟨some ⟨addr, wire⟩, s.trace⟩ = some ⟨some ⟨addr, wire⟩, s.trace ++ w⟩ ∧
      ∀ (t : Adafruit_BD3491FS) (d : Adafruit_I2CDevice), t.i2c_dev = some d → d.addr = addr →
        Op.step hdr op t = some { t with trace := t.trace ++ w }) ∧
    mute hdr ⟨some ⟨addr, wire⟩, s.trace⟩
      = some ⟨some ⟨addr, wire⟩,
          s.trace ++ [⟨addr, hdr.BD3491FS_INPUT_SELECTOR, hdr.BD3491FS_INPUT_MUTE % 256⟩]⟩ := by
  refine ⟨begin_fail hdr addr wire s hfail, fun op hop => ?_, ?_⟩
  · obtain ⟨w, hw, hall⟩ := setter_writes hdr op addr hop
    exact ⟨w, hw, hall ⟨some ⟨addr, wire⟩, s.trace⟩ ⟨addr, wire⟩ rfl rfl, hall⟩
  · simp only [mute]
    rw [write_some _ _ _ ⟨addr, wire⟩ rfl]

/-- Witness for C5 (as amended) -/
theorem C5_failed_begin_witness :
    Adafruit_I2CDevice.begin ⟨0x41, emptyWire⟩ = false ∧
    begin sampleHeader 0x41 emptyWire fresh = some (false, ⟨some ⟨0x41, emptyWire⟩, []⟩) ∧
    mute sampleHeader ⟨some ⟨0x41, emptyWire⟩, []⟩
      = some ⟨some ⟨0x41, emptyWire⟩, [⟨0x41, 0x04, 0x07⟩]⟩ :=
  ⟨by decide,
   (C5_failed_begin sampleHeader 0x41 emptyWire fresh (by decide)).1,
   (C5_failed_begin sampleHeader 0x41 emptyWire fresh (by decide)).2.2⟩

/-- C6: when the transport handshake succeeds, begin returns true and appends
exactly one write, the byte 0x81 to the system-reset register; whatever calls
follow, they run to the end and their writes come after that one in the
trace. -/
theorem C6_begin_resets_first (hdr : Header) (addr : Nat) (wire : TwoWire)
    (s : Adafruit_BD3491FS) (ops : List Op)
    (hok : Adafruit_I2CDevice.begin ⟨addr, wire⟩ = true) :
    begin hdr addr wire s
      = some (true, ⟨some ⟨addr, wire⟩,
          s.trace ++ [⟨addr, hdr.BD3491FS_SYSTEM_RESET, 0x81⟩]⟩) ∧
    ∃ s2 later, run hdr (Op.begin addr wire :: ops) s = some s2 ∧
      s2.trace = s.trace ++ ⟨addr, hdr.BD3491FS_SYSTEM_RESET, 0x81⟩ :: later := by
  refine ⟨begin_ok hdr addr wire s hok, ?_⟩
  obtain ⟨s2, _, later, hrun, _, htr⟩ :=
    run_init hdr ops ⟨some ⟨addr, wire⟩, s.trace ++ [⟨addr, hdr.BD3491FS_SYSTEM_RESET, 0x81⟩]⟩
      ⟨addr, wire⟩ rfl
  refine ⟨s2, later, ?_, ?_⟩
  · simp [run, Op.step, begin_ok hdr addr wire s hok, hrun]
  · rw [htr]
    simp

/-- Witness for C6 -/
theorem C6_begin_resets_first_witness :
    Adafruit_I2CDevice.begin ⟨0x41, sampleWire⟩ = true ∧
    begin sampleHeader 0x41 sampleWire fresh
      = some (true, ⟨some ⟨0x41, sampleWire⟩, [⟨0x41, 0xFE, 0x81⟩]⟩) ∧
    ∃ s2 later, run sampleHeader [Op.begin 0x41 sampleWire, Op.setVolumeCh1 10, Op.mute] fresh
        = some s2 ∧
      s2.trace = [] ++ ⟨0x41, 0xFE, 0x81⟩ :: later :=
  ⟨by decide,
   C6_begin_resets_first sampleHeader 0x41 sampleWire fresh [Op.setVolumeCh1 10, Op.mute]
     (by decide)⟩

/-- C7: for every address and bus, begin returns exactly the outcome of the
transport handshake (true if and only if the bus device's begin succeeds); the
reset write, 0x81 to the system-reset register, is appended when it succeeds
and nothing is appended when it fails. -/
theorem C7_begin_result (hdr : Header) (addr : Nat) (wire : TwoWire) (s : Adafruit_BD3491FS) :
    begin hdr addr wire s
      = some (Adafruit_I2CDevice.begin ⟨addr, wire⟩,
          ⟨some ⟨addr, wire⟩,
            if Adafruit_I2CDevice.begin ⟨addr, wire⟩ then
              s.trace ++ [⟨addr, hdr.BD3491FS_SYSTEM_RESET, 0x81⟩]
            else s.trace⟩) := by
  cases h : Adafruit_I2CDevice.begin ⟨addr, wire⟩ with
  | false => simpa using begin_fail hdr addr wire s h
  | true => simpa using begin_ok hdr addr wire s h

/-! ## Fixed writes -/

/-- C8: on a controller holding a handle, after any sequence of calls
whatsoever, reset appends exactly one write, the byte 0x81 to the system-reset
register; the register and the byte are the same whatever came before. -/
theorem C8_reset (hdr : Header) (s0 : Adafruit_BD3491FS) (d0 : Adafruit_I2CDevice)
    (ops : List Op) (h0 : s0.i2c_dev = some d0) :
    ∃ s d, run hdr ops s0 = some s ∧ s.i2c_dev = some d ∧
      reset hdr s
        = some { s with trace := s.trace ++ [⟨d.addr, hdr.BD3491FS_SYSTEM_RESET, 0x81⟩] } := by
  obtain ⟨s, d, _, hrun, hd, _⟩ := run_init hdr ops s0 d0 h0
  exact ⟨s, d, hrun, hd, reset_some hdr s d hd⟩

/-- Witness for C8 -/
theorem C8_reset_witness :
    ∃ s d, run sampleHeader [Op.setCurrentInput 2, Op.setBassGain 3 true] ready = some s ∧
      s.i2c_dev = some d ∧
      reset sampleHeader s = some { s with trace := s.trace ++ [⟨d.addr, 0xFE, 0x81⟩] } :=
  C8_reset sampleHeader ready ⟨0x41, sampleWire⟩ [Op.setCurrentInput 2, Op.setBassGain 3 true] rfl

/-- C9: on a controller holding a handle, after any sequence of calls
whatsoever (whatever input was selected), mute appends exactly one write, the
tag BD3491FS_INPUT_MUTE to the input-selector register, and does exactly what
setCurrentInput(BD3491FS_INPUT_MUTE) does.  The tag is a byte value. -/
theorem C9_mute (hdr : Header) (s0 : Adafruit_BD3491FS) (d0 : Adafruit_I2CDevice)
    (ops : List Op) (h0 : s0.i2c_dev = some d0) (hm : hdr.BD3491FS_INPUT_MUTE < 256) :
    ∃ s d, run hdr ops s0 = some s ∧ s.i2c_dev = some d ∧
      mute hdr s
        = some { s with trace := s.trace ++
            [⟨d.addr, hdr.BD3491FS_INPUT_SELECTOR, hdr.BD3491FS_INPUT_MUTE⟩] } ∧
      mute hdr s = setCurrentInput hdr hdr.BD3491FS_INPUT_MUTE s := by
  obtain ⟨s, d, _, hrun, hd, _⟩ := run_init hdr ops s0 d0 h0
  refine ⟨s, d, hrun, hd, ?_, rfl⟩
  simp only [mute]
  rw [write_some _ _ _ d hd, Nat.mod_eq_of_lt hm]

/-- Witness for C9 -/
theorem C9_mute_witness :
    ∃ s d, run sampleHeader [Op.setCurrentInput 2, Op.setVolumeCh2 40] ready = some s ∧
      s.i2c_dev = some d ∧
      mute sampleHeader s = some { s with trace := s.trace ++ [⟨d.addr, 0x04, 0x07⟩] } ∧
      mute sampleHeader s = setCurrentInput sampleHeader 0x07 s :=
  C9_mute sampleHeader ready ⟨0x41, sampleWire⟩ [Op.setCurrentInput 2, Op.setVolumeCh2 40] rfl
    (by decide)

/-- C14: when the transport handshake succeeds, a second begin(address, bus)
returns true again, appends the same single write as the first (0x81 to the
system-reset register), and leaves the controller with the same handle as
after the first call. -/
theorem C14_begin_again (hdr : Header) (addr : Nat) (wire : TwoWire) (s : Adafruit_BD3491FS)
    (hok : Adafruit_I2CDevice.begin ⟨addr, wire⟩ = true) :
    ∃ s1 s2, begin hdr addr wire s = some (true, s1) ∧
      begin hdr addr wire s1 = some (true, s2) ∧
      s1.trace = s.trace ++ [⟨addr, hdr.BD3491FS_SYSTEM_RESET, 0x81⟩] ∧
      s2.trace = s1.trace ++ [⟨addr, hdr.BD3491FS_SYSTEM_RESET, 0x81⟩] ∧
      s1.i2c_dev = some ⟨addr, wire⟩ ∧ s2.i2c_dev = s1.i2c_dev :=
  ⟨_, _, begin_ok hdr addr wire s hok, begin_ok hdr addr wire _ hok, rfl, rfl, rfl, rfl⟩

/-- Witness for C14 -/
theorem C14_begin_again_witness :
    Adafruit_I2CDevice.begin ⟨0x41, sampleWire⟩ = true ∧
    ∃ s1 s2, begin sampleHeader 0x41 sampleWire fresh = some (true, s1) ∧
      begin sampleHeader 0x41 sampleWire s1 = some (true, s2) ∧
      s1.trace = fresh.trace ++ [⟨0x41, 0xFE, 0x81⟩] ∧
      s2.trace = s1.trace ++ [⟨0x41, 0xFE, 0x81⟩] ∧
      s1.i2c_dev = some ⟨0x41, sampleWire⟩ ∧ s2.i2c_dev = s1.i2c_dev :=
  ⟨by decide, C14_begin_again sampleHeader 0x41 sampleWire fresh (by decide)⟩

/-! ## Frame: what a call can change -/

theorem write_frame (r : Adafruit_I2CRegister) (v : Nat) (t : Adafruit_BD3491FS)
    (d : Adafruit_I2CDevice) (h : r.i2cdevice = some d) :
    r.write v t
      = some ⟨t.i2c_dev, t.trace ++
          List.map (fun p : Nat × Nat => (⟨d.addr, p.1, p.2⟩ : BusWrite))
            [(r.address, v % 256)]⟩ :=
  write_some r v t d h

theorem noop_frame (t : Adafruit_BD3491FS) (d : Adafruit_I2CDevice) :
    some t
      = some ⟨t.i2c_dev, t.trace ++
          List.map (fun p : Nat × Nat => (⟨d.addr, p.1, p.2⟩ : BusWrite)) []⟩ := by
  simp

/-- Every call but `begin` keeps the handle, keeps the recorded writes, and
appends at most one write whose register and byte are fixed by the call. -/
theorem frame_writes (hdr : Header) (op : Op) (hop : op.isBegin = false) :
    ∃ w : List (Nat × Nat), w.length ≤ 1 ∧
      ∀ (t : Adafruit_BD3491FS) (d : Adafruit_I2CDevice), t.i2c_dev = some d →
        Op.step hdr op t
          = some ⟨t.i2c_dev, t.trace ++
              List.map (fun p : Nat × Nat => (⟨d.addr, p.1, p.2⟩ : BusWrite)) w⟩ := by
  cases op with
  | begin a w => simp [Op.isBegin] at hop
  | reset =>
    exact ⟨[(hdr.BD3491FS_SYSTEM_RESET, 0x81 % 256)], by simp,
      fun t d ht => write_frame _ _ t d ht⟩
  | setCurrentInput i =>
    exact ⟨[(hdr.BD3491FS_INPUT_SELECTOR, i % 256)], by simp,
      fun t d ht => write_frame _ _ t d ht⟩
  | setInputGain g =>
    by_cases hg : g = 5 ∨ g = 7
    · refine ⟨[], by simp, fun t d _ => ?_⟩
      simp only [Op.step, setInputGain, if_pos hg]
      exact noop_frame t d
    · refine ⟨[(hdr.BD3491FS_INPUT_GAIN, (g <<< 1) % 256)], by simp, fun t d ht => ?_⟩
      simp only [Op.step, setInputGain, if_neg hg]
      exact write_frame _ _ t d ht
  | setVolumeCh1 x =>
    by_cases hx : x > 87
    · refine ⟨[], by simp, fun t d _ => ?_⟩
      simp only [Op.step, setVolumeCh1, if_pos hx]
      exact noop_frame t d
    · refine ⟨[(hdr.BD3491FS_VOLUME_GAIN_CH1, (x <<< 1) % 256)], by simp, fun t d ht => ?_⟩
      simp only [Op.step, setVolumeCh1, if_neg hx]
      exact write_frame _ _ t d ht
  | setVolumeCh2 x =>
    by_cases hx : x > 87
    · refine ⟨[], by simp, fun t d _ => ?_⟩
      simp only [Op.step, setVolumeCh2, if_pos hx]
      exact noop_frame t d
    · refine ⟨[(hdr.BD3491FS_VOLUME_GAIN_CH2, (x <<< 1) % 256)], by simp, fun t d ht => ?_⟩
      simp only [Op.step, setVolumeCh2, if_neg hx]
      exact write_frame _ _ t d ht
  | setBassGain l c =>
    by_cases hl : l > 7
    · refine ⟨[], by simp, fun t d _ => ?_⟩
      simp only [Op.step, setBassGain, if_pos hl]
      exact noop_frame t d
    · refine ⟨[(hdr.BD3491FS_BASS_GAIN, ((if c then 1 <<< 7 else 0) ||| l) % 256)],
        by simp, fun t d ht => ?_⟩
      simp only [Op.step, setBassGain, if_neg hl]
      exact write_frame _ _ t d ht
  | setTrebleGain l c =>
    by_cases hl : l < 0 ∨ l > 7
    · refine ⟨[], by simp, fun t d _ => ?_⟩
      simp only [Op.step, setTrebleGain, if_pos hl]
      exact noop_frame t d
    · refine ⟨[(hdr.BD3491FS_TREBLE_GAIN, ((if c then 1 <<< 7 else 0) ||| l) % 256)],
        by simp, fun t d ht => ?_⟩
      simp only [Op.step, setTrebleGain, if_neg hl]
      exact write_frame _ _ t d ht
  | setSurroundGain l =>
    exact ⟨[(hdr.BD3491FS_SURROUND,
        ((if (if l ≠ hdr.BD3491FS_SURR_OFF then true else false) then 1 <<< 7 else 0)
          ||| (l &&& 0b01111111)) % 256)], by simp,
      fun t d ht => write_frame _ _ t d ht⟩
  | mute =>
    exact ⟨[(hdr.BD3491FS_INPUT_SELECTOR, hdr.BD3491FS_INPUT_MUTE % 256)], by simp,
      fun t d ht => write_frame _ _ t d ht⟩
  | unMute i =>
    exact ⟨[(hdr.BD3491FS_INPUT_SELECTOR, i % 256)], by simp,
      fun t d ht => write_frame _ _ t d ht⟩

/-- C15: on a controller holding a handle, every call other than begin leaves
the handle as it was, leaves the writes already recorded as they were, and
appends at most one write whose register and byte are fixed by the call and
its arguments alone; so the same call after any two call histories appends the
same register and byte. -/
theorem C15_frame (hdr : Header) (op : Op) (hop : op.isBegin = false) :
    ∃ w : List (Nat × Nat), w.length ≤ 1 ∧
      (∀ (t : Adafruit_BD3491FS) (d : Adafruit_I2CDevice), t.i2c_dev = some d →
        Op.step hdr op t
          = some ⟨t.i2c_dev, t.trace ++
              List.map (fun p : Nat × Nat => (⟨d.addr, p.1, p.2⟩ : BusWrite)) w⟩) ∧
      (∀ (h1 h2 : List Op) (s0 : Adafruit_BD3491FS) (d0 : Adafruit_I2CDevice),
        s0.i2c_dev = some d0 →
        ∃ t1 t2 d1 d2, run hdr h1 s0 = some t1 ∧ run hdr h2 s0 = some t2 ∧
          Op.step hdr op t1
            = some ⟨some d1, t1.trace ++
                List.map (fun p : Nat × Nat => (⟨d1.addr, p.1, p.2⟩ : BusWrite)) w⟩ ∧
          Op.step hdr op t2
            = some ⟨some d2, t2.trace ++
                List.map (fun p : Nat × Nat => (⟨d2.addr, p.1, p.2⟩ : BusWrite)) w⟩) := by
  obtain ⟨w, hw, hall⟩ := frame_writes hdr op hop
  refine ⟨w, hw, hall, fun h1 h2 s0 d0 h0 => ?_⟩
  obtain ⟨t1, d1, _, hr1, hd1, _⟩ := run_init hdr h1 s0 d0 h0
  obtain ⟨t2, d2, _, hr2, hd2, _⟩ := run_init hdr h2 s0 d0 h0
  refine ⟨t1, t2, d1, d2, hr1, hr2, ?_, ?_⟩
  · rw [hall t1 d1 hd1, hd1]
  · rw [hall t2 d2 hd2, hd2]

/-- Witness for C15 -/
theorem C15_frame_witness :
    ∃ w : List (Nat × Nat), w.length ≤ 1 ∧
      (∀ (t : Adafruit_BD3491FS) (d : Adafruit_I2CDevice), t.i2c_dev = some d →
        Op.step sampleHeader (Op.setVolumeCh1 10) t
          = some ⟨t.i2c_dev, t.trace ++
              List.map (fun p : Nat × Nat => (⟨d.addr, p.1, p.2⟩ : BusWrite)) w⟩) ∧
      (∀ (h1 h2 : List Op) (s0 : Adafruit_BD3491FS) (d0 : Adafruit_I2CDevice),
        s0.i2c_dev = some d0 →
        ∃ t1 t2 d1 d2, run sampleHeader h1 s0 = some t1 ∧ run sampleHeader h2 s0 = some t2 ∧
          Op.step sampleHeader (Op.setVolumeCh1 10) t1
            = some ⟨some d1, t1.trace ++
                List.map (fun p : Nat × Nat => (⟨d1.addr, p.1, p.2⟩ : BusWrite)) w⟩ ∧
          Op.step sampleHeader (Op.setVolumeCh1 10) t2
            = some ⟨some d2, t2.trace ++
                List.map (fun p : Nat × Nat => (⟨d2.addr, p.1, p.2⟩ : BusWrite)) w⟩) :=
  C15_frame sampleHeader (Op.setVolumeCh1 10) rfl

/-! ## Encodings -/

theorem shl_one_facts (a : Nat) (h : a ≤ 87) :
    a <<< 1 ≤ 174 ∧ Nat.testBit (a <<< 1) 0 = false ∧ (a <<< 1) >>> 1 = a := by
  rw [Nat.shiftLeft_eq, Nat.shiftRight_eq_div_pow, Nat.testBit_zero]
  refine ⟨by omega, ?_, by omega⟩
  have h2 : a * 2 ^ 1 % 2 ≠ 1 := by omega
  simp [h2]

theorem shl_one_inj (a b : Nat) (h : a <<< 1 = b <<< 1) : a = b := by
  rw [Nat.shiftLeft_eq, Nat.shiftLeft_eq] at h
  omega

theorem tone_byte_decode (level : Nat) (cut : Bool) (h : level ≤ 7) :
    ((if cut then 0x80 else 0) ||| level) &&& 0x07 = level ∧
    Nat.testBit ((if cut then 0x80 else 0) ||| level) 7 = cut ∧
    ((if cut then 0x80 else 0) ||| level) &&& 0x78 = 0 := by
  interval_cases level <;> cases cut <;> decide

theorem tone_byte_inj (l1 l2 : Nat) (c1 c2 : Bool) (h1 : l1 ≤ 7) (h2 : l2 ≤ 7)
    (h : (if c1 then 0x80 else 0) ||| l1 = (if c2 then 0x80 else 0) ||| l2) :
    l1 = l2 ∧ c1 = c2 := by
  obtain ⟨a1, b1, _⟩ := tone_byte_decode l1 c1 h1
  obtain ⟨a2, b2, _⟩ := tone_byte_decode l2 c2 h2
  rw [h] at a1 b1
  exact ⟨a1.symm.trans a2, b1.symm.trans b2⟩

theorem volume1_some (hdr : Header) (d : Adafruit_I2CDevice) (tr : List BusWrite) (a : Nat)
    (h : a ≤ 87) :
    setVolumeCh1 hdr a ⟨some d, tr⟩
      = some ⟨some d, tr ++ [⟨d.addr, hdr.BD3491FS_VOLUME_GAIN_CH1, a <<< 1⟩]⟩ := by
  have hn : ¬ a > 87 := by omega
  simp only [setVolumeCh1, if_neg hn]
  rw [write_some _ _ _ d rfl, shl_one_mod a (by omega)]

theorem volume2_some (hdr : Header) (d : Adafruit_I2CDevice) (tr : List BusWrite) (a : Nat)
    (h : a ≤ 87) :
    setVolumeCh2 hdr a ⟨some d, tr⟩
      = some ⟨some d, tr ++ [⟨d.addr, hdr.BD3491FS_VOLUME_GAIN_CH2, a <<< 1⟩]⟩ := by
  have hn : ¬ a > 87 := by omega
  simp only [setVolumeCh2, if_neg hn]
  rw [write_some _ _ _ d rfl, shl_one_mod a (by omega)]

theorem bass_some (hdr : Header) (d : Adafruit_I2CDevice) (tr : List BusWrite) (level : Nat)
    (cut : Bool) (h : level ≤ 7) :
    setBassGain hdr level cut ⟨some d, tr⟩
      = some ⟨some d, tr ++
          [⟨d.addr, hdr.BD3491FS_BASS_GAIN, (if cut then 0x80 else 0) ||| level⟩]⟩ := by
  have hn : ¬ level > 7 := by omega
  simp only [setBassGain, if_neg hn]
  rw [write_some _ _ _ d rfl, tone_byte_mod level cut h]

theorem treble_some (hdr : Header) (d : Adafruit_I2CDevice) (tr : List BusWrite) (level : Nat)
    (cut : Bool) (h : level ≤ 7) :
    setTrebleGain hdr level cut ⟨some d, tr⟩
      = some ⟨some d, tr ++
          [⟨d.addr, hdr.BD3491FS_TREBLE_GAIN, (if cut then 0x80 else 0) ||| level⟩]⟩ := by
  have hn : ¬ (level < 0 ∨ level > 7) := by omega
  simp only [setTrebleGain, if_neg hn]
  rw [write_some _ _ _ d rfl, tone_byte_mod level cut h]

/-- C16: for every accepted attenuation a (0 <= a <= 87) the byte written by
setVolumeCh1 and setVolumeCh2 is a << 1 itself (no truncation to the byte), it
is at most 174, its low bit is 0, and shifting it right by one gives a back;
so two accepted attenuations that produce the same write are equal. -/
theorem C16_volume_byte (hdr : Header) (d : Adafruit_I2CDevice) (tr : List BusWrite)
    (a : Nat) (ha : a ≤ 87) :
    setVolumeCh1 hdr a ⟨some d, tr⟩
      = some ⟨some d, tr ++ [⟨d.addr, hdr.BD3491FS_VOLUME_GAIN_CH1, a <<< 1⟩]⟩ ∧
    setVolumeCh2 hdr a ⟨some d, tr⟩
      = some ⟨some d, tr ++ [⟨d.addr, hdr.BD3491FS_VOLUME_GAIN_CH2, a <<< 1⟩]⟩ ∧
    a <<< 1 ≤ 174 ∧ (a <<< 1) % 256 = a <<< 1 ∧
    Nat.testBit (a <<< 1) 0 = false ∧ (a <<< 1) >>> 1 = a ∧
    (∀ a2 : Nat, a2 ≤ 87 →
      setVolumeCh1 hdr a2 ⟨some d, tr⟩ = setVolumeCh1 hdr a ⟨some d, tr⟩ → a2 = a) ∧
    (∀ a2 : Nat, a2 ≤ 87 →
      setVolumeCh2 hdr a2 ⟨some d, tr⟩ = setVolumeCh2 hdr a ⟨some d, tr⟩ → a2 = a) := by
  obtain ⟨h1, h2, h3⟩ := shl_one_facts a ha
  refine ⟨volume1_some hdr d tr a ha, volume2_some hdr d tr a ha, h1,
    shl_one_mod a (by omega), h2, h3, fun a2 ha2 he => ?_, fun a2 ha2 he => ?_⟩
  · rw [volume1_some hdr d tr a2 ha2, volume1_some hdr d tr a ha] at he
    simp at he
    exact shl_one_inj a2 a he
  · rw [volume2_some hdr d tr a2 ha2, volume2_some hdr d tr a ha] at he
    simp at he
    exact shl_one_inj a2 a he

/-- Witness for C16 -/
theorem C16_volume_byte_witness :
    setVolumeCh1 sampleHeader 87 ready = some ⟨some ⟨0x41, sampleWire⟩, [⟨0x41, 0x21, 174⟩]⟩ :=
  (C16_volume_byte sampleHeader ⟨0x41, sampleWire⟩ [] 87 (by decide)).1

/-- C17: for every level in 0..7 and every cut, the byte b written by
setBassGain and setTrebleGain satisfies b & 0x07 = level, bit 7 of b is set
exactly when cut holds, and bits 3..6 of b are zero; so two valid (level, cut)
pairs that produce the same write are equal. -/
theorem C17_tone_lossless (hdr : Header) (d : Adafruit_I2CDevice) (tr : List BusWrite)
    (level : Nat) (cut : Bool) (hl : level ≤ 7) :
    ∃ b : Nat,
      setBassGain hdr level cut ⟨some d, tr⟩
        = some ⟨some d, tr ++ [⟨d.addr, hdr.BD3491FS_BASS_GAIN, b⟩]⟩ ∧
      setTrebleGain hdr level cut ⟨some d, tr⟩
        = some ⟨some d, tr ++ [⟨d.addr, hdr.BD3491FS_TREBLE_GAIN, b⟩]⟩ ∧
      b &&& 0x07 = level ∧ Nat.testBit b 7 = cut ∧ b &&& 0x78 = 0 ∧
      (∀ (level2 : Nat) (cut2 : Bool), level2 ≤ 7 →
        setBassGain hdr level2 cut2 ⟨some d, tr⟩ = setBassGain hdr level cut ⟨some d, tr⟩ →
        level2 = level ∧ cut2 = cut) ∧
      (∀ (level2 : Nat) (cut2 : Bool), level2 ≤ 7 →
        setTrebleGain hdr level2 cut2 ⟨some d, tr⟩ = setTrebleGain hdr level cut ⟨some d, tr⟩ →
        level2 = level ∧ cut2 = cut) := by
  obtain ⟨h1, h2, h3⟩ := tone_byte_decode level cut hl
  refine ⟨(if cut then 0x80 else 0) ||| level, bass_some hdr d tr level cut hl,
    treble_some hdr d tr level cut hl, h1, h2, h3, fun l2 c2 hl2 he => ?_,
    fun l2 c2 hl2 he => ?_⟩
  · rw [bass_some hdr d tr l2 c2 hl2, bass_some hdr d tr level cut hl] at he
    simp only [Option.some.injEq, Adafruit_BD3491FS.mk.injEq, List.append_cancel_left_eq,
      List.cons.injEq, BusWrite.mk.injEq, true_and, and_true] at he
    exact tone_byte_inj l2 level c2 cut hl2 hl he
  · rw [treble_some hdr d tr l2 c2 hl2, treble_some hdr d tr level cut hl] at he
    simp only [Option.some.injEq, Adafruit_BD3491FS.mk.injEq, List.append_cancel_left_eq,
      List.cons.injEq, BusWrite.mk.injEq, true_and, and_true] at he
    exact tone_byte_inj l2 level c2 cut hl2 hl he

/-- Witness for C17 -/
theorem C17_tone_lossless_witness :
    ∃ b : Nat,
      setBassGain sampleHeader 5 true ready
        = some ⟨some ⟨0x41, sampleWire⟩, [] ++ [⟨0x41, 0x51, b⟩]⟩ ∧
      setTrebleGain sampleHeader 5 true ready
        = some ⟨some ⟨0x41, sampleWire⟩, [] ++ [⟨0x41, 0x57, b⟩]⟩ ∧
      b &&& 0x07 = 5 ∧ Nat.testBit b 7 = true ∧ b &&& 0x78 = 0 ∧
      (∀ (level2 : Nat) (cut2 : Bool), level2 ≤ 7 →
        setBassGain sampleHeader level2 cut2 ready = setBassGain sampleHeader 5 true ready →
        level2 = 5 ∧ cut2 = true) ∧
      (∀ (level2 : Nat) (cut2 : Bool), level2 ≤ 7 →
        setTrebleGain sampleHeader level2 cut2 ready = setTrebleGain sampleHeader 5 true ready →
        level2 = 5 ∧ cut2 = true) :=
  C17_tone_lossless sampleHeader ⟨0x41, sampleWire⟩ [] 5 true (by decide)

/-- C18: setInputGain has no upper-bound check: for every gain value g other
than 5 and 7, values above 7 included, it appends exactly one write to the
input-gain register, of the byte of g << 1 (which is g << 1 itself for every g
up to 127), whereas setBassGain and setTrebleGain append nothing for g > 7;
and the values 5 and 7 are the only ones it rejects. -/
theorem C18_setInputGain_unbounded (hdr : Header) (d : Adafruit_I2CDevice)
    (tr : List BusWrite) (g : Nat) (cut : Bool) (h5 : g ≠ 5) (h7 : g ≠ 7) :
    setInputGain hdr g ⟨some d, tr⟩
      = some ⟨some d, tr ++ [⟨d.addr, hdr.BD3491FS_INPUT_GAIN, (g <<< 1) % 256⟩]⟩ ∧
    (g ≤ 127 → (g <<< 1) % 256 = g <<< 1) ∧
    (g > 7 → setBassGain hdr g cut ⟨some d, tr⟩ = some ⟨some d, tr⟩ ∧
      setTrebleGain hdr g cut ⟨some d, tr⟩ = some ⟨some d, tr⟩) ∧
    setInputGain hdr 5 ⟨some d, tr⟩ = some ⟨some d, tr⟩ ∧
    setInputGain hdr 7 ⟨some d, tr⟩ = some ⟨some d, tr⟩ := by
  have hn : ¬ (g = 5 ∨ g = 7) := by omega
  refine ⟨?_, shl_one_mod g, fun hg => ?_, by simp [setInputGain], by simp [setInputGain]⟩
  · simp only [setInputGain, if_neg hn]
    rw [write_some _ _ _ d rfl]
  · simp [setBassGain, setTrebleGain, hg]

/-- Witness for C18 -/
theorem C18_setInputGain_unbounded_witness :
    setInputGain sampleHeader 9 ready = some ⟨some ⟨0x41, sampleWire⟩, [⟨0x41, 0x06, 18⟩]⟩ ∧
    setBassGain sampleHeader 9 false ready = some ready :=
  ⟨(C18_setInputGain_unbounded sampleHeader ⟨0x41, sampleWire⟩ [] 9 false (by decide)
      (by decide)).1,
   ((C18_setInputGain_unbounded sampleHeader ⟨0x41, sampleWire⟩ [] 9 false (by decide)
      (by decide)).2.2.1 (by decide)).1⟩

end BD3491FS
